import Mathlib

/-!
Verification of the logx ingestion/durability core against its specification.

The Go sources are shallowly embedded: byte slices become `List Nat` (each
element a byte value `< 256`), the layered WAL (bufio buffer → OS page cache →
disk) becomes an explicit three-field state, and fallible I/O operations take
explicit success flags and return `Option`.
-/

set_option maxRecDepth 100000

namespace Logx

/-! ## CRC32 (IEEE 802.3), as computed by Go's hash/crc32 with the IEEE table

Go's table-driven update `crc = tab[byte(crc)^b] ^ (crc>>8)` with pre/post
inversion is the standard reflected CRC-32: initial value `0xFFFFFFFF`,
reflected polynomial `0xEDB88320`, final xor `0xFFFFFFFF`.  We embed the
bit-at-a-time form, which computes the same function the table encodes. -/

/-- One step of the reflected CRC-32 bit loop: shift right, conditionally
xoring in the reflected IEEE polynomial. -/
def crcBitStep (c : Nat) : Nat :=
  if c % 2 = 1 then (c / 2) ^^^ 0xEDB88320 else c / 2

/-- Iterate the CRC bit step `n` times. -/
def crcRounds : Nat → Nat → Nat
  | 0, c => c
  | n + 1, c => crcRounds n (crcBitStep c)

/-- Fold one input byte into the running CRC (eight bit rounds). -/
def crc32UpdateByte (crc b : Nat) : Nat :=
  crcRounds 8 (crc ^^^ (b % 256))

/-- Embedding of `crc32.Checksum(data, crc32.MakeTable(crc32.IEEE))` from the source. -/
def crc32 (data : List Nat) : Nat :=
  (data.foldl crc32UpdateByte 0xFFFFFFFF) ^^^ 0xFFFFFFFF

/-- Embedding of `binary.BigEndian.PutUint32`: the four big-endian bytes of a 32-bit word. -/
def be32 (n : Nat) : List Nat :=
  [n / 2 ^ 24 % 256, n / 2 ^ 16 % 256, n / 2 ^ 8 % 256, n % 256]

/-- The ASCII bytes of the string used by spec scenario S3. -/
def boom : List Nat := [98, 111, 111, 109, 10]

/-! ## Layered WAL file state

`core.BufferWriter` (part_008) writes through `bufio.Writer` (`buf`) into the
OS file (`page`, the page cache); `walFile.Sync` forces the page cache to
stable storage (`disk`).  A `bufio` write that spills early moves the same
bytes to `page` that the final `Flush` otherwise would, so collapsing the
spill into the flush preserves all contents. -/

structure Wal where
  buf : List Nat
  page : List Nat
  disk : List Nat
deriving DecidableEq

/-- Embedding of `bufio.Writer.Flush`: on success the buffered bytes move to the file
(page cache); on failure the state is unchanged and an error is returned. -/
def flushBuf (ok : Bool) (w : Wal) : Option Wal :=
  if ok then some ⟨[], w.page ++ w.buf, w.disk⟩ else none

/-- Embedding of `os.File.Sync`: on success the page-cache contents become durable. -/
def fsyncFile (ok : Bool) (w : Wal) : Option Wal :=
  if ok then some ⟨w.buf, w.page, w.page⟩ else none

/-- Embedding of `(*BufferWriter).sync` from part_008 (package core): `Flush`, and only if
it succeeded, `walFile.Sync`; the first error is returned. -/
def syncCore (fOk sOk : Bool) (w : Wal) : Option Wal :=
  (flushBuf fOk w).bind (fsyncFile sOk)

/-- Embedding of `(*BufferWriter).sync` from buffer.go (package logx), embedded exactly as
written: `if err := b.wal.Flush(); err == nil { return nil }` — a successful
flush returns success immediately (no fsync); only a FAILED flush falls
through to `return b.walFile.Sync()`. -/
def syncLogx (fOk sOk : Bool) (w : Wal) : Option Wal :=
  match flushBuf fOk w with
  | some w' => some w'
  | none => fsyncFile sOk w

/-- Embedding of `prepareSyncData` (part_008): payload followed by the 4-byte big-endian
CRC32 of the payload. -/
def prepareSyncData (data : List Nat) : List Nat :=
  data ++ be32 (crc32 data)

/-- Embedding of `(*BufferWriter).SyncWrite` (part_008, package core): append the CRC-framed
record to the bufio buffer, then flush + fsync via `sync`.  The short-write
check `n != len(data)+CheckSumSize` never fires when the bufio write
succeeded, since `bufio.Writer.Write` returns `n = len(p)` on success. -/
def syncWriteCore (fOk sOk : Bool) (w : Wal) (data : List Nat) : Option Wal :=
  syncCore fOk sOk { w with buf := w.buf ++ prepareSyncData data }

/-- Embedding of `(*BufferWriter).SyncWrite` (buffer.go, package logx): writes the raw
record with no CRC, then calls the logx `sync`. -/
def syncWriteLogx (fOk sOk : Bool) (w : Wal) (data : List Nat) : Option Wal :=
  syncLogx fOk sOk { w with buf := w.buf ++ data }

/-! ## Theorems for C1 and C2 -/

/-- C1: a successful `SyncWrite` (core.BufferWriter, the spec's `append_sync`)
appends exactly `len(r) + 4` bytes to the WAL: the payload followed by the
4-byte big-endian CRC32 (IEEE) of the payload.  In particular for
`r = "boom\n"` the WAL grows by 9 bytes whose last 4 bytes are
`CRC32_BE("boom\n") = 35 98 44 8c`. -/
theorem syncWrite_appends_crc_frame :
    (∀ (d r : List Nat) (fOk sOk : Bool) (w' : Wal),
        syncWriteCore fOk sOk ⟨[], d, d⟩ r = some w' →
        w'.disk = d ++ (r ++ be32 (crc32 r)) ∧
        w'.disk.length = d.length + (r.length + 4)) ∧
    be32 (crc32 boom) = [0x35, 0x98, 0x44, 0x8c] ∧
    (syncWriteCore true true ⟨[], [], []⟩ boom).map Wal.disk =
      some (boom ++ [0x35, 0x98, 0x44, 0x8c]) ∧
    (boom ++ [0x35, 0x98, 0x44, 0x8c]).length = 9 := by
  refine ⟨?_, by decide, by decide, by decide⟩
  intro d r fOk sOk w' h
  cases fOk <;> cases sOk <;>
    simp [syncWriteCore, syncCore, flushBuf, fsyncFile] at h
  subst h
  refine ⟨by simp [prepareSyncData], ?_⟩
  simp [prepareSyncData, be32]

/-- Witness for C1: the general statement applied at `d = []`, `r = "boom\n"`,
with both I/O steps succeeding. -/
theorem syncWrite_appends_crc_frame_witness :
    (Wal.mk [] (boom ++ [0x35, 0x98, 0x44, 0x8c]) (boom ++ [0x35, 0x98, 0x44, 0x8c])).disk =
        [] ++ (boom ++ be32 (crc32 boom)) ∧
    (Wal.mk [] (boom ++ [0x35, 0x98, 0x44, 0x8c]) (boom ++ [0x35, 0x98, 0x44, 0x8c])).disk.length =
        List.length ([] : List Nat) + (boom.length + 4) :=
  syncWrite_appends_crc_frame.1 [] boom true true _ (by decide)

/-- C2 (code bug): `SyncWrite` in buffer.go returns success without the record
being durable.  Its `sync` has the error check inverted relative to its own
doc comment (which prescribes Flush to the page cache THEN Sync to disk):
a successful `Flush` returns nil immediately, so `walFile.Sync` is never
invoked and `disk` is unchanged; and when `Flush` fails, the record is still
sitting in the bufio buffer yet a successful `Sync` makes the call report
success.  Both runs below return `some` (success) with `disk = []`. -/
theorem logx_syncWrite_succeeds_without_fsync :
    syncWriteLogx true true ⟨[], [], []⟩ boom = some ⟨[], boom, []⟩ ∧
    syncWriteLogx false true ⟨[], [], []⟩ boom = some ⟨boom, [], []⟩ := by
  decide

/-! ## Asynchronous path of core.BufferWriter (part_008)

`bufferWriterPool.New` is `bytes.NewBuffer(make([]byte, ChunkSize))`: a
buffer that starts HOLDING 4096 zero bytes (`Len() = 4096`), not an empty
buffer of capacity 4096.  `AsyncWrite` checks
`currentBuffer.Len() + len(data) >= ChunkSize` BEFORE appending; a swap
copies the current contents (plus CRC) to the WAL via `writeAndFlush` and
installs the other buffer after `Reset()`, so the new current buffer is
empty.  `Close` flushes the bufio layer but never drains `currentBuffer`,
discarding whatever it still holds. -/

/-- Contents of a fresh buffer from `bufferWriterPool` in part_008:
`bytes.NewBuffer(make([]byte, 4096))` holds 4096 zero bytes. -/
def initialPoolBuf : List Nat := List.replicate 4096 0

/-- State of the async path: the current buffer's contents and the payloads
of the frames already written to the WAL (in order). -/
structure AsyncState where
  cur : List Nat
  walFrames : List (List Nat)
deriving DecidableEq

/-- Embedding of `swrapBuffer` with the I/O succeeding on the first attempt: the drained
payload (current contents) becomes a WAL frame; the freshly installed current
buffer is `Reset()`, hence empty. -/
def swrapModel (s : AsyncState) : AsyncState :=
  ⟨[], s.walFrames ++ [s.cur]⟩

/-- Embedding of `(*BufferWriter).AsyncWrite` (part_008): swap first when
`Len() + len(data) >= ChunkSize`, then append the record. -/
def asyncWriteModel (s : AsyncState) (r : List Nat) : AsyncState :=
  let s1 := if 4096 ≤ s.cur.length + r.length then swrapModel s else s
  ⟨s1.cur ++ r, s1.walFrames⟩

/-- A WAL frame on disk: payload followed by its big-endian CRC32. -/
def frameBytes (p : List Nat) : List Nat := p ++ be32 (crc32 p)

/-- The WAL file contents induced by a list of frame payloads. -/
def walFileBytes (frames : List (List Nat)) : List Nat :=
  (frames.map frameBytes).flatten

/-- Run a sequence of `AsyncWrite`s against a freshly constructed
`core.BufferWriter` (both pool buffers start as `initialPoolBuf`; only the
initial current buffer's contents ever reach the WAL, the other is reset at
the first swap). -/
def runAsync (rs : List (List Nat)) : AsyncState :=
  rs.foldl asyncWriteModel ⟨initialPoolBuf, []⟩

/-- A 512-byte record (ASCII 'a' repeated), for spec scenario S2. -/
def rec512 : List Nat := List.replicate 512 97

lemma initialPoolBuf_length : initialPoolBuf.length = 4096 := by
  rw [initialPoolBuf, List.length_replicate]

lemma rec512_length : rec512.length = 512 := by
  rw [rec512, List.length_replicate]

/-- For any ten 512-byte records, `AsyncWrite` flushes exactly two frames —
the initial 4096 zero bytes and the first seven records — and leaves records
8–10 in the current buffer. -/
lemma runAsync_ten
    (r1 r2 r3 r4 r5 r6 r7 r8 r9 r10 : List Nat)
    (h1 : r1.length = 512) (h2 : r2.length = 512) (h3 : r3.length = 512)
    (h4 : r4.length = 512) (h5 : r5.length = 512) (h6 : r6.length = 512)
    (h7 : r7.length = 512) (h8 : r8.length = 512) (h9 : r9.length = 512)
    (h10 : r10.length = 512) :
    runAsync [r1, r2, r3, r4, r5, r6, r7, r8, r9, r10] =
      ⟨r8 ++ r9 ++ r10, [initialPoolBuf, r1 ++ r2 ++ r3 ++ r4 ++ r5 ++ r6 ++ r7]⟩ := by
  simp [runAsync, asyncWriteModel, swrapModel, initialPoolBuf_length,
    h1, h2, h3, h4, h5, h6, h7, h8, h9, h10, List.append_assoc]

/-- C3 counterexample: after ten 512-byte `AsyncWrite`s and `Close`, the WAL
does NOT hold a 4096-byte frame of the first eight records followed by a
1024-byte frame of the last two: the second flushed frame has 3584 bytes
(the first seven records), not 1024. -/
theorem asyncWrite_s2_counterexample :
    ¬ (runAsync (List.replicate 10 rec512)).walFrames =
      [(List.replicate 8 rec512).flatten, (List.replicate 2 rec512).flatten] := by
  intro h
  have hrep : List.replicate 10 rec512 =
      [rec512, rec512, rec512, rec512, rec512, rec512, rec512, rec512,
        rec512, rec512] := rfl
  rw [hrep, runAsync_ten rec512 rec512 rec512 rec512 rec512 rec512 rec512
      rec512 rec512 rec512 rec512_length rec512_length rec512_length
      rec512_length rec512_length rec512_length rec512_length rec512_length
      rec512_length rec512_length] at h
  simp only [List.cons.injEq, and_true] at h
  have hl := congrArg List.length h.2
  simp [List.length_append, List.length_flatten, rec512_length] at hl

/-- C3 amended: for any ten 512-byte records, the WAL ends with exactly two
frames — the 4096 zero bytes the pooled current buffer was initialised with,
and the 3584-byte concatenation of the first SEVEN records — while records
8–10 remain in the current buffer, which `Close` discards.  Each frame is
the payload followed by its CRC32 in the file. -/
theorem asyncWrite_s2_amended
    (r1 r2 r3 r4 r5 r6 r7 r8 r9 r10 : List Nat)
    (h1 : r1.length = 512) (h2 : r2.length = 512) (h3 : r3.length = 512)
    (h4 : r4.length = 512) (h5 : r5.length = 512) (h6 : r6.length = 512)
    (h7 : r7.length = 512) (h8 : r8.length = 512) (h9 : r9.length = 512)
    (h10 : r10.length = 512) :
    (runAsync [r1, r2, r3, r4, r5, r6, r7, r8, r9, r10]).walFrames =
        [initialPoolBuf, r1 ++ r2 ++ r3 ++ r4 ++ r5 ++ r6 ++ r7] ∧
    (runAsync [r1, r2, r3, r4, r5, r6, r7, r8, r9, r10]).cur =
        r8 ++ r9 ++ r10 ∧
    walFileBytes (runAsync [r1, r2, r3, r4, r5, r6, r7, r8, r9, r10]).walFrames =
        frameBytes initialPoolBuf ++
          frameBytes (r1 ++ r2 ++ r3 ++ r4 ++ r5 ++ r6 ++ r7) := by
  rw [runAsync_ten r1 r2 r3 r4 r5 r6 r7 r8 r9 r10 h1 h2 h3 h4 h5 h6 h7 h8 h9 h10]
  exact ⟨rfl, rfl, by simp [walFileBytes]⟩

/-- Witness for C3's amended theorem at ten concrete 512-byte records. -/
theorem asyncWrite_s2_amended_witness :
    (runAsync [rec512, rec512, rec512, rec512, rec512, rec512, rec512,
        rec512, rec512, rec512]).walFrames =
        [initialPoolBuf,
          rec512 ++ rec512 ++ rec512 ++ rec512 ++ rec512 ++ rec512 ++ rec512] ∧
    (runAsync [rec512, rec512, rec512, rec512, rec512, rec512, rec512,
        rec512, rec512, rec512]).cur = rec512 ++ rec512 ++ rec512 ∧
    walFileBytes (runAsync [rec512, rec512, rec512, rec512, rec512, rec512,
        rec512, rec512, rec512, rec512]).walFrames =
        frameBytes initialPoolBuf ++
          frameBytes (rec512 ++ rec512 ++ rec512 ++ rec512 ++ rec512 ++
            rec512 ++ rec512) :=
  asyncWrite_s2_amended rec512 rec512 rec512 rec512 rec512 rec512 rec512
    rec512 rec512 rec512 rec512_length rec512_length rec512_length
    rec512_length rec512_length rec512_length rec512_length rec512_length
    rec512_length rec512_length

/-! ## Retry with exponential backoff and jitter (part_008, `swrapBuffer`)

`MaxRetry = 5`; attempt `i` (0-based) that fails is followed by a sleep of
`100ms * 2^i` plus `rand.Int63n(delay/2)`.  Durations are in nanoseconds.
The PRNG is modelled by an oracle `r`; `rand.Int63n(n)` returns a value in
`[0, n)`, modelled as `r i % n`.  The outcome of `writeAndFlush` at attempt
`i` is the oracle `res` (`none` = success, `some e` = the error `e`). -/

/-- Backoff delay before retry `i`: `time.Millisecond * 100 * (1 << i)`. -/
def attemptDelay (i : Nat) : Nat := 100000000 * 2 ^ i

/-- The jitter drawn at attempt `i`: `rand.Int63n(int64(delay / 2))`. -/
def attemptJitter (r : Nat → Nat) (i : Nat) : Nat := r i % (attemptDelay i / 2)

/-- Result of the retry loop: whether it returned nil, the wrapped final
error when exhausted, how many attempts ran, and the sleeps performed. -/
structure RetryResult where
  ok : Bool
  finalErr : Option Nat
  attempts : Nat
  sleeps : List Nat
deriving DecidableEq

/-- The `for counter := 0; counter < MaxRetry; counter++` loop of
`swrapBuffer`: attempt, return nil on success, else sleep
`delay + jitter` and continue; when exhausted, return the error wrapping
the last attempt's error. -/
def retryAux (res : Nat → Option Nat) (r : Nat → Nat) :
    Option Nat → Nat → Nat → RetryResult
  | last, _, 0 => ⟨false, last, 0, []⟩
  | _, i, fuel + 1 =>
    match res i with
    | none => ⟨true, none, 1, []⟩
    | some e =>
      let rest := retryAux res r (some e) (i + 1) fuel
      ⟨rest.ok, rest.finalErr, rest.attempts + 1,
        (attemptDelay i + attemptJitter r i) :: rest.sleeps⟩

/-- The retry loop of `swrapBuffer` with `MaxRetry = 5`, abstracted over the
attempt outcomes and the PRNG. -/
def swrapRetry (res : Nat → Option Nat) (r : Nat → Nat) : RetryResult :=
  retryAux res r none 0 5

/-- C6: the async flush path makes at most 5 attempts; when every attempt
fails it returns failure wrapping the final attempt's error after exactly 5
attempts, sleeping `100ms * 2^i` plus jitter after the `i`-th failed attempt;
every jitter lies in `[0, delay/2)`; and success is reported only when some
attempt succeeded. -/
theorem swrapBuffer_bounded_retry :
    (∀ res r, (swrapRetry res r).attempts ≤ 5) ∧
    (∀ res r, (∀ i, i < 5 → (res i).isSome) →
        (swrapRetry res r).ok = false ∧
        (swrapRetry res r).finalErr = res 4 ∧
        (swrapRetry res r).attempts = 5 ∧
        (swrapRetry res r).sleeps =
          [attemptDelay 0 + attemptJitter r 0,
           attemptDelay 1 + attemptJitter r 1,
           attemptDelay 2 + attemptJitter r 2,
           attemptDelay 3 + attemptJitter r 3,
           attemptDelay 4 + attemptJitter r 4]) ∧
    (∀ r i, attemptJitter r i < attemptDelay i / 2) ∧
    (∀ res r, (swrapRetry res r).ok = true → ∃ i, i < 5 ∧ res i = none) := by
  have hhalf : ∀ i, attemptDelay i / 2 = 50000000 * 2 ^ i := by
    intro i
    have : attemptDelay i = 2 * (50000000 * 2 ^ i) := by
      rw [attemptDelay]; ring
    rw [this, Nat.mul_div_cancel_left _ (by norm_num)]
  refine ⟨?_, ?_, ?_, ?_⟩
  · intro res r
    rw [swrapRetry]
    rcases h0 : res 0 with _ | e0 <;> rcases h1 : res 1 with _ | e1 <;>
      rcases h2 : res 2 with _ | e2 <;> rcases h3 : res 3 with _ | e3 <;>
      rcases h4 : res 4 with _ | e4 <;>
      simp [retryAux, h0, h1, h2, h3, h4]
  · intro res r h
    obtain ⟨e0, h0⟩ := Option.isSome_iff_exists.mp (h 0 (by norm_num))
    obtain ⟨e1, h1⟩ := Option.isSome_iff_exists.mp (h 1 (by norm_num))
    obtain ⟨e2, h2⟩ := Option.isSome_iff_exists.mp (h 2 (by norm_num))
    obtain ⟨e3, h3⟩ := Option.isSome_iff_exists.mp (h 3 (by norm_num))
    obtain ⟨e4, h4⟩ := Option.isSome_iff_exists.mp (h 4 (by norm_num))
    simp [swrapRetry, retryAux, h0, h1, h2, h3, h4]
  · intro r i
    have : 0 < attemptDelay i / 2 := by
      rw [hhalf]; positivity
    exact Nat.mod_lt _ this
  · intro res r hok
    rcases h0 : res 0 with _ | e0
    · exact ⟨0, by norm_num, h0⟩
    rcases h1 : res 1 with _ | e1
    · exact ⟨1, by norm_num, h1⟩
    rcases h2 : res 2 with _ | e2
    · exact ⟨2, by norm_num, h2⟩
    rcases h3 : res 3 with _ | e3
    · exact ⟨3, by norm_num, h3⟩
    rcases h4 : res 4 with _ | e4
    · exact ⟨4, by norm_num, h4⟩
    rw [swrapRetry] at hok
    simp [retryAux, h0, h1, h2, h3, h4] at hok

/-- Witness for C6: every attempt failing with error code 7 and a constant
PRNG; the loop reports failure wrapping error 7 after exactly 5 attempts. -/
theorem swrapBuffer_bounded_retry_witness :
    (swrapRetry (fun _ => some 7) (fun _ => 0)).ok = false ∧
    (swrapRetry (fun _ => some 7) (fun _ => 0)).finalErr = (fun _ => some 7) 4 ∧
    (swrapRetry (fun _ => some 7) (fun _ => 0)).attempts = 5 ∧
    (swrapRetry (fun _ => some 7) (fun _ => 0)).sleeps =
      [attemptDelay 0 + attemptJitter (fun _ => 0) 0,
       attemptDelay 1 + attemptJitter (fun _ => 0) 1,
       attemptDelay 2 + attemptJitter (fun _ => 0) 2,
       attemptDelay 3 + attemptJitter (fun _ => 0) 3,
       attemptDelay 4 + attemptJitter (fun _ => 0) 4] :=
  swrapBuffer_bounded_retry.2.1 (fun _ => some 7) (fun _ => 0)
    (fun _ _ => rfl)

/-! ## RotateStrategy.Rotate (rotate.go)

State fields relevant to `Rotate`.  In the source, `realDir` is set only at
construction (`<baseDir>/<currentDate>`) and by the midnight cron job; the
`Rotate` slow path never updates it, nor `currentDate`.  The date-change
branch calls `createNewFile(r.filename, 0)`, which opens
`fmt.Sprintf("%s/%s", r.realDir, filename)` — the bare filename, with no
date — resets the size counter and persists sequence 0.  The size branch
opens `fmt.Sprintf("%s.%s.%d.log", r.filename, date, newSeq)` under
`realDir`.  Compression is elided (it only affects the retired file). -/

structure RotState where
  realDir : String
  filename : String
  currentDate : String
  currentSize : Int
  threshold : Int
  seqStored : Nat
deriving DecidableEq

inductive RotResult where
  | noop
  | rotated (path : String)
  | failed
deriving DecidableEq

/-- Embedding of `(*RotateStrategy).Rotate`, with `now = time.Now().Format("20060102")`
and `openOk` abstracting whether `createNewFile` (open + sequence persist)
succeeds. -/
def rotateModel (now : String) (openOk : Bool) (s : RotState) :
    RotResult × RotState :=
  if now = s.currentDate ∧ s.currentSize < s.threshold then (.noop, s)
  else if ¬ now = s.currentDate then
    if openOk then
      (.rotated (s.realDir ++ "/" ++ s.filename),
        { s with currentSize := 0, seqStored := 0 })
    else (.failed, s)
  else if s.threshold ≤ s.currentSize then
    let newSeq := s.seqStored + 1
    if openOk then
      (.rotated (s.realDir ++ "/" ++ s.filename ++ "." ++ now ++ "." ++
          toString newSeq ++ ".log"),
        { s with currentSize := 0, seqStored := newSeq })
    else (.failed, s)
  else (.noop, s)

/-- Returns `true` iff `pat` occurs as a contiguous substring of `l`. -/
def hasSubstr (pat : List Char) : List Char → Bool
  | [] => decide (pat = [])
  | c :: t => pat.isPrefixOf (c :: t) || hasSubstr pat t

/-- The rotation state on the morning after a rotation day: yesterday's
directory and date, below the size threshold. -/
def rotYesterday : RotState :=
  ⟨"logs/20251010", "server.log", "20251010", 0, 104857600, 0⟩

/-- C4 (code bug): after a date change, `Rotate`'s date branch succeeds by
opening `realDir ++ "/" ++ filename` — the OLD date's directory and a
basename containing NO date — because `createNewFile(r.filename, 0)` is
passed the bare filename and `realDir`/`currentDate` are never updated.  The
size counter is reset and seq=0 persisted, and an open failure is returned
to the caller, but the destination file's name does not include the new
date, contradicting the claim (and the layout `<filename>.<YYYYMMDD>` used
by `NewRotateStrategy` and the midnight cron in the same file). -/
theorem rotate_date_change_opens_undated_file :
    (rotateModel "20251011" true rotYesterday).1 =
        .rotated "logs/20251010/server.log" ∧
    hasSubstr "20251011".data "logs/20251010/server.log".data = false ∧
    (rotateModel "20251011" true rotYesterday).2.currentDate = "20251010" ∧
    (rotateModel "20251011" true rotYesterday).2.realDir = "logs/20251010" ∧
    (rotateModel "20251011" true rotYesterday).2.currentSize = 0 ∧
    (rotateModel "20251011" true rotYesterday).2.seqStored = 0 ∧
    (rotateModel "20251011" false rotYesterday).1 = .failed := by
  decide

/-! ## Daily cleanup (rotate.go, `AsyncCleanWork`)

`NewRotateStrategy` never copies `cfg.location` into the struct, so
`r.location` is the empty string and `time.LoadLocation("")` yields UTC; the
cron spec `"0 0 1 * * *"` therefore fires at 01:00:00 UTC.  At that instant
`startTime := time.Now().AddDate(0, 0, -period)` carries the 01:00:00
time-of-day, while `time.Parse("20060102", name)` yields midnight UTC of the
named day.  A directory is removed when `tt.Before(startTime)`.  Days are
modelled as integer day indices and instants as seconds (86400-second days,
no DST — the schedule is UTC). -/

/-- Embedding of `time.Parse("20060102", name)`: midnight UTC of day `d`, in seconds. -/
def parseMidnightUTC (d : Int) : Int := d * 86400

/-- The instant at which the cleanup cron fires on day `today`:
01:00:00 UTC. -/
def sweepInstant (today : Int) : Int := today * 86400 + 3600

/-- The cutoff `startTime := time.Now().AddDate(0, 0, -period)` at the sweep instant. -/
def cleanupCutoff (today period : Int) : Int :=
  sweepInstant today - period * 86400

/-- The directories `AsyncCleanWork` removes: those whose parsed date is
`Before(startTime)` (entries that are not directories or fail to parse are
skipped and retained). -/
def removedDirs (today period : Int) (dirs : List Int) : List Int :=
  dirs.filter fun d => parseMidnightUTC d < cleanupCutoff today period

/-- C5 (code bug): the sweep removes every directory dated up to and
INCLUDING `today − period`, not only those strictly before it: midnight of
day `today − period` precedes the 01:00:00 cutoff.  With `period = 3` and
directories `today−5 .. today−2, today` (today = day 20000), the code
removes `today−5, today−4, today−3`, whereas the claim expects only
`today−5, today−4` removed and `today−3` retained. -/
theorem cleanup_removes_boundary_day :
    (∀ today period d : Int,
        parseMidnightUTC d < cleanupCutoff today period ↔ d ≤ today - period) ∧
    removedDirs 20000 3 [19995, 19996, 19997, 19998, 20000] =
      [19995, 19996, 19997] ∧
    ¬ removedDirs 20000 3 [19995, 19996, 19997, 19998, 20000] =
      [19995, 19996] := by
  refine ⟨?_, by decide, by decide⟩
  intro today period d
  simp only [parseMidnightUTC, cleanupCutoff, sweepInstant]
  omega

/-! ## WrapPool (part_007)

Counters of `WrapPool[T]` and `Stats`.  The embedding is the sequential
semantics of `Get`/`Put`: with no interfering thread a `CompareAndSwap`
whose expected value was just loaded always succeeds, and the `sync.Pool`
type assertion on a pool that only ever holds `T` succeeds, so the
`ErrPoolType` branch is dead.  `Get`'s second loop re-checks
`allocations > maxSize` (strict) and then `allocations < maxSize`; when
`allocations = maxSize` neither fires and the loop repeats with an unchanged
state — modelled by recursion on fuel. -/

structure PoolState where
  maxSize : Int
  currentCount : Int
  allocations : Int
  totalGets : Int
  discards : Int
  closed : Bool
deriving DecidableEq

inductive GetOut where
  | reused
  | fresh
  | errClosed
  | errMaxSize
deriving DecidableEq

/-- Embedding of `(*WrapPool).Get`, run for at most `fuel` loop iterations; `none` means
the call is still looping after `fuel` iterations. -/
def getFuel (s : PoolState) : Nat → Option (GetOut × PoolState)
  | 0 => none
  | fuel + 1 =>
    if s.closed then some (.errClosed, s)
    else if 0 < s.currentCount then
      some (.reused,
        { s with currentCount := s.currentCount - 1,
                 totalGets := s.totalGets + 1 })
    else if s.maxSize < s.allocations then some (.errMaxSize, s)
    else if s.allocations < s.maxSize then
      some (.fresh,
        { s with allocations := s.allocations + 1,
                 totalGets := s.totalGets + 1 })
    else getFuel s fuel

/-- A pool fresh from `NewWrapPool` with `maxSize = 1`: the pre-warm loop
runs `int(float64(1) * 0.3) = 0` times. -/
def poolMax1 : PoolState := ⟨1, 0, 0, 0, 0, false⟩

/-- C7 (code bug): `Get` does not always terminate.  On a `maxSize = 1` pool
the first `Get` allocates (allocations becomes 1 = maxSize); the second
`Get` finds the pool empty, `allocations > maxSize` false and
`allocations < maxSize` false, so no branch exits and the loop re-reads the
same state forever — it never returns `ErrPoolMaxSize`.  (Sequentially
`allocations` never exceeds `maxSize`, so the strict `>` guard is
unreachable.) -/
theorem pool_get_spins_when_allocations_reach_max :
    (∀ fuel : Nat, getFuel poolMax1 (fuel + 1) =
        some (.fresh, ⟨1, 0, 1, 1, 0, false⟩)) ∧
    (∀ fuel : Nat, getFuel ⟨1, 0, 1, 1, 0, false⟩ fuel = none) := by
  constructor
  · intro fuel
    simp [getFuel, poolMax1]
  · intro fuel
    induction fuel with
    | zero => rfl
    | succ n ih => simpa [getFuel] using ih

/-- Sequential state transition of `Get` (the terminating branches; in the
`allocations = maxSize` spin case the state is left unchanged). -/
def getStep (s : PoolState) : PoolState :=
  if s.closed then s
  else if 0 < s.currentCount then
    { s with currentCount := s.currentCount - 1,
             totalGets := s.totalGets + 1 }
  else if s.maxSize < s.allocations then s
  else if s.allocations < s.maxSize then
    { s with allocations := s.allocations + 1,
             totalGets := s.totalGets + 1 }
  else s

/-- Embedding of `(*WrapPool).Put`: when `currentCount >= maxSize` the object is
discarded (`allocations--`, `discards++`); otherwise it is returned to the
pool (`currentCount++`).  After close the object is disposed with no
counter change. -/
def putStep (s : PoolState) : PoolState :=
  if s.closed then s
  else if s.maxSize ≤ s.currentCount then
    { s with allocations := s.allocations - 1, discards := s.discards + 1 }
  else { s with currentCount := s.currentCount + 1 }

inductive PoolOp where
  | get
  | put

def applyOp (s : PoolState) : PoolOp → PoolState
  | .get => getStep s
  | .put => putStep s

/-- Run a sequence of `Get`/`Put` calls from a given state. -/
def runPool (s : PoolState) (ops : List PoolOp) : PoolState :=
  ops.foldl applyOp s

/-- A pool fresh from `NewWrapPool(maxSize = M)` whose pre-warm loop ran `p`
times (`p = int(float64(M) * 0.3)`, so `p ≤ M`). -/
def mkPoolState (m p : Int) : PoolState := ⟨m, p, 0, 0, 0, false⟩

/-- Embedding of `(*WrapPool).Stats`: `(allocations, totalGets − allocations, discards)`. -/
def statsModel (s : PoolState) : Int × Int × Int :=
  (s.allocations, s.totalGets - s.allocations, s.discards)

lemma getStep_maxSize (s : PoolState) : (getStep s).maxSize = s.maxSize := by
  rw [getStep]
  split <;> try rfl
  split <;> try rfl
  split <;> try rfl
  split <;> rfl

lemma putStep_maxSize (s : PoolState) : (putStep s).maxSize = s.maxSize := by
  rw [putStep]
  split <;> try rfl
  split <;> rfl

lemma getStep_count_le (s : PoolState) (h : s.currentCount ≤ s.maxSize) :
    (getStep s).currentCount ≤ (getStep s).maxSize := by
  rw [getStep]
  split
  · exact h
  split
  · simpa using by omega
  split
  · exact h
  split
  · simpa using h
  · exact h

lemma putStep_count_le (s : PoolState) (h : s.currentCount ≤ s.maxSize) :
    (putStep s).currentCount ≤ (putStep s).maxSize := by
  rw [putStep]
  split
  · exact h
  split
  · simpa using h
  · rename_i hc
    simp only []
    omega

/-- C8: for every sequence of `Get`/`Put` calls on a pool created with
`maxSize = M` (pre-warmed with `p ≤ M` objects), the in-pool counter never
exceeds `M`, and the statistics satisfy
`reuses + allocations = totalGets` (`Stats` returns
`reuses = totalGets − allocations`). -/
theorem pool_count_bounded_and_stats
    (M p : Int) (hp : p ≤ M) (ops : List PoolOp) :
    (runPool (mkPoolState M p) ops).currentCount ≤ M ∧
    (statsModel (runPool (mkPoolState M p) ops)).2.1 +
        (statsModel (runPool (mkPoolState M p) ops)).1 =
      (runPool (mkPoolState M p) ops).totalGets := by
  have key : ∀ (ops : List PoolOp) (s : PoolState),
      s.currentCount ≤ s.maxSize →
      (runPool s ops).currentCount ≤ (runPool s ops).maxSize ∧
      (runPool s ops).maxSize = s.maxSize := by
    intro ops
    induction ops with
    | nil => exact fun s h => ⟨h, rfl⟩
    | cons op rest ih =>
      intro s h
      rcases op with _ | _
      · have h1 := getStep_count_le s h
        have h2 := getStep_maxSize s
        exact ⟨(ih (getStep s) h1).1, (ih (getStep s) h1).2.trans h2⟩
      · have h1 := putStep_count_le s h
        have h2 := putStep_maxSize s
        exact ⟨(ih (putStep s) h1).1, (ih (putStep s) h1).2.trans h2⟩
  have h0 : (mkPoolState M p).currentCount ≤ (mkPoolState M p).maxSize := hp
  refine ⟨?_, ?_⟩
  · have := key ops (mkPoolState M p) h0
    calc (runPool (mkPoolState M p) ops).currentCount
        ≤ (runPool (mkPoolState M p) ops).maxSize := this.1
      _ = M := this.2
  · simp [statsModel]

/-- Witness for C8: `M = 10`, pre-warm 3, a short get/put trace. -/
theorem pool_count_bounded_and_stats_witness :
    (runPool (mkPoolState 10 3) [.get, .get, .put, .get, .put, .put]).currentCount ≤ 10 ∧
    (statsModel (runPool (mkPoolState 10 3) [.get, .get, .put, .get, .put, .put])).2.1 +
        (statsModel (runPool (mkPoolState 10 3) [.get, .get, .put, .get, .put, .put])).1 =
      (runPool (mkPoolState 10 3) [.get, .get, .put, .get, .put, .put]).totalGets :=
  pool_count_bounded_and_stats 10 3 (by norm_num)
    [.get, .get, .put, .get, .put, .put]

/-! ## Channel-based DoubleBuffer drainer (core/buffer.go)

`asyncReader` ranges over the retired (closed) `active` channel and does a
non-blocking send to `readq`: `select { case b.readq <- data: default: }`.
Channels are modelled as lists with an explicit capacity; a send succeeds
exactly when the queue holds fewer than `cap` elements, and the `default`
branch silently drops the record.  `NewBuffer(capacity, maxSize)` creates
`readq` with capacity `2 * capacity`. -/

/-- One iteration of `asyncReader`'s loop body: forward `d` to `readq` if it
has spare capacity at this instant, else drop it. -/
def drainStep (cap : Nat) (q : List String) (d : String) : List String :=
  if q.length < cap then q ++ [d] else q

/-- Embedding of `asyncReader` over the records of the retired channel, in order. -/
def asyncReaderModel (cap : Nat) (q : List String) (ch : List String) :
    List String :=
  ch.foldl (drainStep cap) q

/-- The `readq` capacity chosen by `NewBuffer`: `capacity * bufferMultiplier`. -/
def readqCapacity (capacity : Nat) : Nat := 2 * capacity

/-- C9: the drainer forwards a record only when `readq` has spare capacity
at that instant; a record met while `readq` is full is dropped silently (the
remaining records are still processed, no error, no retry), so a record
accepted by `Write` need not reach a registered consumer: with
`capacity = 1` (readq capacity 2), of three drained records the third never
appears in `readq`. -/
theorem drainer_drops_records_when_readq_full :
    (∀ (cap : Nat) (q : List String) (d : String) (ch : List String),
        cap ≤ q.length →
        asyncReaderModel cap q (d :: ch) = asyncReaderModel cap q ch) ∧
    (∀ (cap : Nat) (q : List String) (d : String) (ch : List String),
        q.length < cap →
        asyncReaderModel cap q (d :: ch) = asyncReaderModel cap (q ++ [d]) ch) ∧
    "c" ∈ ["a", "b", "c"] ∧
    "c" ∉ asyncReaderModel (readqCapacity 1) [] ["a", "b", "c"] := by
  refine ⟨?_, ?_, by decide, by decide⟩
  · intro cap q d ch h
    have hn : ¬ q.length < cap := Nat.not_lt.mpr h
    simp [asyncReaderModel, drainStep, hn]
  · intro cap q d ch h
    simp [asyncReaderModel, drainStep, h]

/-- Witness for C9: a full `readq` of capacity 1 drops the next record. -/
theorem drainer_drops_records_when_readq_full_witness :
    asyncReaderModel 1 ["x"] ["y"] = asyncReaderModel 1 ["x"] [] :=
  drainer_drops_records_when_readq_full.1 1 ["x"] "y" [] (by decide)

/-! ## WAL file opening in core.NewBufferWriter (part_008)

`os.OpenFile(filepath.Join(logDir, "wal.log"), os.O_RDWR|os.O_CREATE|os.O_APPEND, 0666)`:
without `O_TRUNC` an existing file keeps its contents; `O_CREATE` makes a
missing file empty; `O_APPEND` directs every subsequent write to the end of
the file. -/

inductive OFlag where
  | rdonly
  | wronly
  | rdwr
  | creat
  | append
  | trunc
deriving DecidableEq

/-- The flags `core.NewBufferWriter` passes to `os.OpenFile` for `wal.log`. -/
def walOpenFlags : List OFlag := [.rdwr, .creat, .append]

/-- Embedding of `os.OpenFile` contents semantics: an existing file is truncated exactly
when `O_TRUNC` is among the flags; a missing file is created empty exactly
when `O_CREATE` is. -/
def openFile (flags : List OFlag) : Option (List Nat) → Option (List Nat)
  | some c => some (if flags.contains .trunc then [] else c)
  | none => if flags.contains .creat then some [] else none

/-- A write through an `O_APPEND` descriptor lands at end-of-file. -/
def appendWrite (c w : List Nat) : List Nat := c ++ w

/-- C10: opening the WAL in `core.NewBufferWriter` preserves every byte of a
pre-existing `wal.log` (no `O_TRUNC` in the flag set), creates a missing one
empty, and every subsequent write only appends: the prior contents remain as
an unchanged prefix. -/
theorem wal_open_preserves_existing_contents :
    (∀ c : List Nat, openFile walOpenFlags (some c) = some c) ∧
    openFile walOpenFlags none = some [] ∧
    walOpenFlags.contains .trunc = false ∧
    (∀ c w : List Nat,
        appendWrite c w = c ++ w ∧
        (appendWrite c w).take c.length = c) := by
  refine ⟨?_, by decide, by decide, ?_⟩
  · intro c
    simp [openFile, walOpenFlags]
  · intro c w
    exact ⟨rfl, by simp [appendWrite, List.take_left]⟩

end Logx
